import Mathlib

/-!
Verification of the `xerr` structured-error library (github.com/nduyhai/xerr).

The Go sources are shallowly embedded below: Go `map[string]string` values
become association lists with unique keys (`Meta`), a possibly-nil map becomes
`Option Meta` (`none` models a nil map), Go `codes.Code` (a `uint32`) becomes
`Nat` with the standard gRPC numbering, Go `int` HTTP codes become `Int`, and
the `Reason` interface is represented by the triple of strings it exposes
(`Code()`, `Message()`, `Reason()`); a custom implementation is observationally
such a triple, and a nil interface value is `none`.
-/

namespace Xerr

/-- Association-list representation of a (non-nil) Go `map[string]string`:
keys are unique in any map built by the embedded operations. -/
abbrev Meta := List (String × String)

/-- Go map assignment `m[k] = v`: replaces the binding when `k` is present,
otherwise appends it. -/
def insertKV : Meta → String → String → Meta
  | [], k, v => [(k, v)]
  | (k', v') :: rest, k, v =>
      if k' = k then (k, v) :: rest else (k', v') :: insertKV rest k v

/-- Go map read `m[k]`: the first (and in a well-formed map, only) binding. -/
def lookupKV : Meta → String → Option String
  | [], _ => none
  | (k', v') :: rest, k => if k' = k then some v' else lookupKV rest k

/-- The keys of a metadata map. -/
def metaKeys (m : Meta) : List String := m.map Prod.fst

/-- A possibly-nil map, viewed as its list of entries (nil reads as empty). -/
def metaList : Option Meta → Meta
  | none => []
  | some m => m

/-- Go `len(m)` on a possibly-nil map. -/
def metaLen (om : Option Meta) : Nat := (metaList om).length

/-- Go map read on a possibly-nil map (reading a nil map gives absence). -/
def metaLookup (om : Option Meta) (k : String) : Option String :=
  lookupKV (metaList om) k

/-- Go `for k, v := range src { dst[k] = v }`: fold the entries of `src`
into `dst` by map assignment. -/
def copyInto (dst : Meta) (src : Meta) : Meta :=
  src.foldl (fun acc p => insertKV acc p.1 p.2) dst

/-- Go string slicing `s[:n]` (the sliced positions used in this library sit
at the boundary of an ASCII literal, where byte and character indices agree). -/
def strTake (s : String) (n : Nat) : String := String.mk (s.data.take n)

/-- Go string slicing `s[n:]` (same ASCII-boundary remark as `strTake`). -/
def strDrop (s : String) (n : Nat) : String := String.mk (s.data.drop n)

/-- Go `len(s)` (same ASCII-boundary remark as `strTake`). -/
def strLen (s : String) : Nat := s.data.length

/-- The observable content of a `Reason` value: the three strings returned by
`Code()`, `Message()` and `Reason()`.  `DefaultReason` stores exactly these. -/
structure DefaultReason where
  code : String
  message : String
  reason : String
deriving DecidableEq, Repr

/-- Embeds `NewDefaultReason` from `reason_default.go`: code and message set, empty
user-facing reason. -/
def NewDefaultReason (code message : String) : DefaultReason :=
  ⟨code, message, ""⟩

/-- The fields of `StructuredError` (xerr.go), parametrised by the type of the
wrapped cause so that the error type and the Go `error` type can be tied
together below.  `reason = none` models a nil `Reason` interface value. -/
structure StructuredErrorG (ε : Type) where
  reason : Option DefaultReason
  GRPCCode : Nat
  HTTPCode : Int
  Metadata : Option Meta
  Cause : Option ε

/-- A Go `error` value as this library observes it: either a
`*StructuredError` or some other (opaque) error carrying its `Error()` text.
Plain errors here do not wrap further errors. -/
inductive GoError where
  | structured (e : StructuredErrorG GoError)
  | plain (msg : String)

/-- The concrete `StructuredError` type of xerr.go. -/
abbrev StructuredError := StructuredErrorG GoError

/-- Embeds `GetCode` (xerr.go): empty string when the reason is nil. -/
def GetCode (e : StructuredError) : String :=
  match e.reason with
  | none => ""
  | some r => r.code

/-- Embeds `GetMessage` (xerr.go): empty string when the reason is nil. -/
def GetMessage (e : StructuredError) : String :=
  match e.reason with
  | none => ""
  | some r => r.message

/-- Embeds `GetUserReason` (xerr.go): empty string when the reason is nil. -/
def GetUserReason (e : StructuredError) : String :=
  match e.reason with
  | none => ""
  | some r => r.reason

/-- gRPC status-code numbering of Go's `google.golang.org/grpc/codes`. -/
def codeOK : Nat := 0
def codeCanceled : Nat := 1
def codeUnknown : Nat := 2
def codeInvalidArgument : Nat := 3
def codeDeadlineExceeded : Nat := 4
def codeNotFound : Nat := 5
def codeAlreadyExists : Nat := 6
def codePermissionDenied : Nat := 7
def codeResourceExhausted : Nat := 8
def codeFailedPrecondition : Nat := 9
def codeAborted : Nat := 10
def codeOutOfRange : Nat := 11
def codeUnimplemented : Nat := 12
def codeInternal : Nat := 13
def codeUnavailable : Nat := 14
def codeDataLoss : Nat := 15
def codeUnauthenticated : Nat := 16

/-- Embeds `New` (xerr.go): fresh error with the given code and message, gRPC code
Unknown, HTTP code 500, nil metadata, nil cause. -/
def New (code message : String) : StructuredError :=
  ⟨some (NewDefaultReason code message), codeUnknown, 500, none, none⟩

/-- Embeds `WithReason` (xerr.go): sets the user-facing reason.  When the current
reason is a `DefaultReason` it is mutated in place; otherwise a new default
reason seeded with the current code and message is installed.  Both branches
leave the observable triple `(code, message, reason)` with the reason
replaced, which is what the representation below records. -/
def WithReason (e : StructuredError) (reason : String) : StructuredError :=
  match e.reason with
  | some r => { e with reason := some { r with reason := reason } }
  | none => { e with reason := some ⟨GetCode e, GetMessage e, reason⟩ }

/-- Embeds `WithGRPCCode` (xerr.go). -/
def WithGRPCCode (e : StructuredError) (code : Nat) : StructuredError :=
  { e with GRPCCode := code }

/-- Embeds `WithHTTPCode` (xerr.go). -/
def WithHTTPCode (e : StructuredError) (code : Int) : StructuredError :=
  { e with HTTPCode := code }

/-- Embeds `WithMetadata` (xerr.go): allocates the metadata map on first use, then
assigns `m[key] = value`. -/
def WithMetadata (e : StructuredError) (key value : String) : StructuredError :=
  { e with Metadata := some (insertKV (metaList e.Metadata) key value) }

/-- Embeds `Is` (xerr.go): true exactly when the target is a `*StructuredError`
with the same application code. -/
def Is (e : StructuredError) (target : GoError) : Bool :=
  match target with
  | .structured se => GetCode e = GetCode se
  | .plain _ => false

/-- Embeds `Error()` of a plain Go error, and of a `StructuredError`
(`"[code] message"`, or a placeholder when the reason is nil). -/
def errorText : GoError → String
  | .structured e =>
      match e.reason with
      | none => "unknown error"
      | some r => "[" ++ r.code ++ "] " ++ r.message
  | .plain msg => msg

/-- The registry entry type of `StandardErrorMapping` (standard codes file):
a gRPC code paired with an HTTP code. -/
structure CodePair where
  GRPCCode : Nat
  HTTPCode : Int
deriving DecidableEq, Repr

/-- The `StandardErrorMapping` table, entry for entry. -/
def StandardErrorMapping : List (String × CodePair) :=
  [ ("UNKNOWN", ⟨codeUnknown, 500⟩),
    ("INTERNAL", ⟨codeInternal, 500⟩),
    ("UNAVAILABLE", ⟨codeUnavailable, 503⟩),
    ("TIMEOUT", ⟨codeDeadlineExceeded, 504⟩),
    ("CANCELLED", ⟨codeCanceled, 499⟩),
    ("INVALID_ARGUMENT", ⟨codeInvalidArgument, 400⟩),
    ("FAILED_PRECONDITION", ⟨codeFailedPrecondition, 400⟩),
    ("OUT_OF_RANGE", ⟨codeOutOfRange, 400⟩),
    ("UNAUTHENTICATED", ⟨codeUnauthenticated, 401⟩),
    ("PERMISSION_DENIED", ⟨codePermissionDenied, 403⟩),
    ("NOT_FOUND", ⟨codeNotFound, 404⟩),
    ("ALREADY_EXISTS", ⟨codeAlreadyExists, 409⟩),
    ("RESOURCE_EXHAUSTED", ⟨codeResourceExhausted, 429⟩),
    ("ABORTED", ⟨codeAborted, 409⟩),
    ("DATA_LOSS", ⟨codeDataLoss, 500⟩),
    ("DATA_VALIDATION", ⟨codeInvalidArgument, 422⟩),
    ("BUSINESS_RULE", ⟨codeFailedPrecondition, 422⟩),
    ("CONFLICT", ⟨codeAborted, 409⟩) ]

/-- Go two-valued map lookup `mapping, exists := StandardErrorMapping[code]`. -/
def standardLookup (code : String) : Option CodePair :=
  (StandardErrorMapping.find? (fun p => p.1 = code)).map Prod.snd

/-- Embeds `NewStandardError` (standard codes file): looks the code up in the
registry, falling back to the `UNKNOWN` entry when absent (`⟨0, 0⟩` is the Go
zero value that a lookup of an absent `UNKNOWN` entry would produce). -/
def NewStandardError (code message : String) : StructuredError :=
  let mapping :=
    match standardLookup code with
    | some m => m
    | none => (standardLookup "UNKNOWN").getD ⟨0, 0⟩
  ⟨some (NewDefaultReason code message), mapping.GRPCCode, mapping.HTTPCode,
    none, none⟩

/-- Embeds `Wrap` (wrap file): nil in, nil out; an existing `*StructuredError` gets
its reason replaced by a fresh default reason carrying the new code and the
existing message (same error value, no second layer); any other error becomes
a new structured error wrapping it as the cause. -/
def Wrap (err : Option GoError) (code : String) : Option StructuredError :=
  match err with
  | none => none
  | some (.structured se) =>
      some { se with reason := some (NewDefaultReason code (GetMessage se)) }
  | some (.plain msg) =>
      some ⟨some (NewDefaultReason code msg), codeUnknown, 500, none,
        some (.plain msg)⟩

/-- Embeds `WrapDefault` (wrap file): wrap with the `UNKNOWN` code. -/
def WrapDefault (err : Option GoError) : Option StructuredError :=
  Wrap err "UNKNOWN"

/-! ### Code tables (grpc.go, http.go) -/

/-- Embeds `grpcToHTTPCode` (grpc.go): maps each of the seventeen standard gRPC codes
to an HTTP status, every other code to 500. -/
def grpcToHTTPCode (code : Nat) : Int :=
  if code = codeOK then 200
  else if code = codeCanceled then 499
  else if code = codeUnknown then 500
  else if code = codeInvalidArgument then 400
  else if code = codeDeadlineExceeded then 504
  else if code = codeNotFound then 404
  else if code = codeAlreadyExists then 409
  else if code = codePermissionDenied then 403
  else if code = codeResourceExhausted then 429
  else if code = codeFailedPrecondition then 400
  else if code = codeAborted then 409
  else if code = codeOutOfRange then 400
  else if code = codeUnimplemented then 501
  else if code = codeInternal then 500
  else if code = codeUnavailable then 503
  else if code = codeDataLoss then 500
  else if code = codeUnauthenticated then 401
  else 500

/-- Embeds `httpToGRPCCode` (http.go): maps HTTP status codes to gRPC codes, with
any otherwise-unmapped 4xx code becoming InvalidArgument and everything else
Unknown. -/
def httpToGRPCCode (httpCode : Int) : Nat :=
  if 200 ≤ httpCode ∧ httpCode < 300 then codeOK
  else if httpCode = 400 then codeInvalidArgument
  else if httpCode = 401 then codeUnauthenticated
  else if httpCode = 403 then codePermissionDenied
  else if httpCode = 404 then codeNotFound
  else if httpCode = 409 then codeAborted
  else if httpCode = 422 then codeFailedPrecondition
  else if httpCode = 429 then codeResourceExhausted
  else if httpCode = 499 then codeCanceled
  else if httpCode = 500 then codeInternal
  else if httpCode = 501 then codeUnimplemented
  else if httpCode = 503 then codeUnavailable
  else if httpCode = 504 then codeDeadlineExceeded
  else if 400 ≤ httpCode ∧ httpCode < 500 then codeInvalidArgument
  else codeUnknown

/-! ### gRPC status model (grpc.go) -/

/-- A typed detail payload attached to a gRPC status, as this library uses
them: `errdetails.ErrorInfo` and `errdetails.LocalizedMessage`. -/
inductive GrpcDetail where
  | errorInfo (reason domain : String) (metadata : Meta)
  | localizedMessage (locale message : String)
deriving DecidableEq

/-- A gRPC `status.Status`: code, message and ordered detail payloads. -/
structure GrpcStatus where
  code : Nat
  message : String
  details : List GrpcDetail
deriving DecidableEq

/-- The fixed domain string placed in every emitted `ErrorInfo`. -/
def xerrDomain : String := "github.com/nduyhai/xerr"

/-- Models grpc-go `status.WithDetails`: appends the detail, except that a
status whose code is `OK` admits no details, in which case grpc-go returns a
nil status and an error.  Marshalling of the well-formed `ErrorInfo` and
`LocalizedMessage` payloads built by this library never fails, so the `OK`
check is the only error source. -/
def withDetails (st : GrpcStatus) (d : GrpcDetail) : Except String GrpcStatus :=
  if st.code = codeOK then .error "no error details for status with code OK"
  else .ok { st with details := st.details ++ [d] }

/-- The tail of `ToGRPCStatus` (grpc.go): attach the localized-message detail
when the user-facing reason is non-empty, ignoring the `WithDetails` error
(`st, _ = st.WithDetails(...)`, which leaves a nil status on failure). -/
def attachLocalized (e : StructuredError) (st : GrpcStatus) : Option GrpcStatus :=
  if GetUserReason e ≠ "" then
    match withDetails st (.localizedMessage "en-US" (GetUserReason e)) with
    | .ok st' => some st'
    | .error _ => none
  else some st

/-- Embeds `ToGRPCStatus` (grpc.go): a status carrying the error's gRPC code and
developer message; when the metadata is non-empty an `ErrorInfo` detail is
attached; then the localized message is attached when the user-facing reason
is non-empty.  On the attachment failure path the Go code runs
`st, err = st.WithDetails(errorInfo); if err != nil { return st }`: the
multiple assignment has already replaced `st` with the nil result of
`WithDetails`, so the early return yields nil — hence `none` on that branch.
The result is `Option` because the Go function returns a possibly-nil
`*status.Status`. -/
def ToGRPCStatus (e : StructuredError) : Option GrpcStatus :=
  let st : GrpcStatus := ⟨e.GRPCCode, GetMessage e, []⟩
  if 0 < metaLen e.Metadata then
    match withDetails st (.errorInfo (GetCode e) xerrDomain (metaList e.Metadata)) with
    | .error _ => none
    | .ok st' => attachLocalized e st'
  else attachLocalized e st

/-- The accumulator of `FromGRPCStatus`'s detail loop: the application code,
the metadata collected so far, and the user-facing reason. -/
structure FromAcc where
  code : String
  metadata : Meta
  userReason : String
deriving DecidableEq, Repr

/-- One step of `FromGRPCStatus`'s detail loop (grpc.go): an `ErrorInfo`
overwrites the code and copies its metadata entries in; a `LocalizedMessage`
overwrites the user reason. -/
def fromStep (acc : FromAcc) : GrpcDetail → FromAcc
  | .errorInfo reason _ md =>
      { acc with code := reason, metadata := copyInto acc.metadata md }
  | .localizedMessage _ msg => { acc with userReason := msg }

/-- Embeds `FromGRPCStatus` (grpc.go): nil in, nil out; otherwise defaults
(code `"UNKNOWN"`, message from the status, allocated empty metadata) are
refined by scanning the details, the gRPC code is taken from the status and
the HTTP code derived through `grpcToHTTPCode`. -/
def FromGRPCStatus : Option GrpcStatus → Option StructuredError
  | none => none
  | some st =>
      let acc := st.details.foldl fromStep ⟨"UNKNOWN", [], ""⟩
      some ⟨some ⟨acc.code, st.message, acc.userReason⟩, st.code,
        grpcToHTTPCode st.code, some acc.metadata, none⟩

/-! ### HTTP JSON model (http.go) -/

/-- The `HTTPError` wire record (http.go): `reason` and `metadata` carry the
`omitempty` JSON tag. -/
structure HTTPError where
  code : String
  message : String
  reason : String
  metadata : Option Meta
deriving DecidableEq

/-- Bytes handed to `FromHTTPJSON`: either the serialization of an
`HTTPError` record or malformed input. -/
inductive JSONBytes where
  | valid (h : HTTPError)
  | invalid (raw : String)
deriving DecidableEq

/-- Models `json.Marshal` on `HTTPError`, representing the produced bytes by
the record they decode back to: an empty `reason` is omitted (and decodes to
`""` again), and a nil or empty metadata map is omitted (decoding to nil). -/
def jsonMarshalHTTPError (h : HTTPError) : JSONBytes :=
  .valid { h with
    metadata :=
      match h.metadata with
      | none => none
      | some m => if m = [] then none else some m }

/-- Embeds `ToHTTPJSON` (http.go): the JSON bytes of the error's wire projection,
paired with its HTTP status code. -/
def ToHTTPJSON (e : StructuredError) : JSONBytes × Int :=
  (jsonMarshalHTTPError ⟨GetCode e, GetMessage e, GetUserReason e, e.Metadata⟩,
    e.HTTPCode)

/-- Embeds `FromHTTPJSON` (http.go): fails on malformed JSON; otherwise builds an
error from the decoded record, deriving the gRPC code from the supplied HTTP
status code.  (`NewDefaultReason` followed by `WithReason` when the decoded
reason is non-empty nets to the decoded reason in every case.) -/
def FromHTTPJSON : JSONBytes → Int → Except String StructuredError
  | .invalid _, _ => .error "json unmarshal error"
  | .valid h, statusCode =>
      .ok ⟨some ⟨h.code, h.message, h.reason⟩, httpToGRPCCode statusCode,
        statusCode, h.metadata, none⟩

/-! ### Detail codec (xerr/details.go) -/

/-- Embeds `WithErrorInfo` (details.go): when the supplied map is non-nil, allocate
the error's metadata if needed and copy the entries in.  The `domain`
argument is accepted and then never used. -/
def WithErrorInfo (e : StructuredError) (domain : String)
    (metadata : Option Meta) : StructuredError :=
  match metadata with
  | none => e
  | some md => { e with Metadata := some (copyInto (metaList e.Metadata) md) }

/-- Embeds `WithBadRequest` (details.go): each `(field, description)` entry is stored
under the metadata key `"field:" ++ field`. -/
def WithBadRequest (e : StructuredError)
    (fieldViolations : Option Meta) : StructuredError :=
  match fieldViolations with
  | none => e
  | some fv =>
      let prefixed := fv.map (fun p => ("field:" ++ p.1, p.2))
      { e with Metadata := some (copyInto (metaList e.Metadata) prefixed) }

/-- The `errdetails.ErrorInfo` record as `GetErrorInfo` builds it. -/
structure ErrorInfoRec where
  reason : String
  domain : String
  metadata : Option Meta
deriving DecidableEq

/-- Embeds `GetErrorInfo` (details.go): the error's code as the reason, the fixed
package domain, and the metadata map as is. -/
def GetErrorInfo (e : StructuredError) : ErrorInfoRec :=
  ⟨GetCode e, xerrDomain, e.Metadata⟩

/-- The Go test `k[:6] == "field:" && len(k) > 6` from `GetBadRequest`. -/
def isFieldKey (k : String) : Prop :=
  6 < strLen k ∧ strTake k 6 = "field:"

instance (k : String) : Decidable (isFieldKey k) := by
  unfold isFieldKey; infer_instance

/-- The body of `GetBadRequest`'s loop (details.go): a matching key yields the
stripped field name with its description. -/
def extractField (p : String × String) : Option (String × String) :=
  if isFieldKey p.1 then some (strDrop p.1 6, p.2) else none

/-- Embeds `GetBadRequest` (details.go): nil metadata gives no record; otherwise the
`field:`-prefixed entries are collected as `(field, description)` pairs, and
zero matches again give no record rather than an empty list. -/
def GetBadRequest (e : StructuredError) : Option (List (String × String)) :=
  match e.Metadata with
  | none => none
  | some m =>
      let fvs := m.filterMap extractField
      if fvs = [] then none else some fvs

/-! ### Map lemmas -/

theorem metaKeys_nil : metaKeys [] = [] := rfl

theorem metaKeys_cons (p : String × String) (m : Meta) :
    metaKeys (p :: m) = p.1 :: metaKeys m := rfl

theorem metaKeys_append (m₁ m₂ : Meta) :
    metaKeys (m₁ ++ m₂) = metaKeys m₁ ++ metaKeys m₂ := List.map_append _ _ _

theorem copyInto_cons (dst : Meta) (p : String × String) (rest : Meta) :
    copyInto dst (p :: rest) = copyInto (insertKV dst p.1 p.2) rest := rfl

theorem lookupKV_insertKV (m : Meta) (k v j : String) :
    lookupKV (insertKV m k v) j = if k = j then some v else lookupKV m j := by
  induction m with
  | nil => simp [insertKV, lookupKV]
  | cons p rest ih =>
      obtain ⟨k', v'⟩ := p
      by_cases hk : k' = k
      · subst hk
        simp only [insertKV, if_pos rfl, lookupKV]
        by_cases hj : k' = j <;> simp [hj]
      · simp only [insertKV, if_neg hk, lookupKV, ih]
        by_cases hj : k' = j
        · subst hj
          have hkj : ¬ (k = k') := fun h => hk h.symm
          simp [hkj]
        · simp [hj]

theorem insertKV_of_not_mem (m : Meta) (k v : String)
    (h : k ∉ metaKeys m) : insertKV m k v = m ++ [(k, v)] := by
  induction m with
  | nil => rfl
  | cons p rest ih =>
      obtain ⟨k', v'⟩ := p
      rw [metaKeys_cons, List.mem_cons] at h
      push_neg at h
      simp only [insertKV, if_neg (Ne.symm h.1), List.cons_append]
      rw [ih h.2]

theorem copyInto_of_disjoint (src dst : Meta)
    (hdisj : ∀ k ∈ metaKeys src, k ∉ metaKeys dst)
    (hnd : (metaKeys src).Nodup) :
    copyInto dst src = dst ++ src := by
  induction src generalizing dst with
  | nil => simp [copyInto]
  | cons p rest ih =>
      obtain ⟨k', v'⟩ := p
      rw [metaKeys_cons, List.nodup_cons] at hnd
      have hp : k' ∉ metaKeys dst :=
        hdisj k' (by rw [metaKeys_cons]; exact List.mem_cons_self _ _)
      rw [copyInto_cons, insertKV_of_not_mem dst k' v' hp,
        ih (dst ++ [(k', v')]) ?_ hnd.2]
      · simp
      · intro k hk hmem
        rw [metaKeys_append] at hmem
        rcases List.mem_append.mp hmem with h1 | h2
        · exact hdisj k (by rw [metaKeys_cons]; exact List.mem_cons_of_mem _ hk) h1
        · have hkk : k = k' := by simpa [metaKeys_cons, metaKeys_nil] using h2
          exact hnd.1 (hkk ▸ hk)

theorem copyInto_nil (m : Meta) (hnd : (metaKeys m).Nodup) :
    copyInto [] m = m := by
  have h := copyInto_of_disjoint m [] (by simp [metaKeys_nil]) hnd
  simpa using h

theorem lookupKV_eq_none (m : Meta) (j : String) (h : j ∉ metaKeys m) :
    lookupKV m j = none := by
  induction m with
  | nil => rfl
  | cons p rest ih =>
      obtain ⟨k', v'⟩ := p
      rw [metaKeys_cons, List.mem_cons] at h
      push_neg at h
      simp only [lookupKV, if_neg (Ne.symm h.1)]
      exact ih h.2

theorem lookupKV_copyInto_not_mem (src dst : Meta) (j : String)
    (h : j ∉ metaKeys src) :
    lookupKV (copyInto dst src) j = lookupKV dst j := by
  induction src generalizing dst with
  | nil => rfl
  | cons p rest ih =>
      obtain ⟨k', v'⟩ := p
      rw [metaKeys_cons, List.mem_cons] at h
      push_neg at h
      rw [copyInto_cons, ih (insertKV dst k' v') h.2,
        lookupKV_insertKV, if_neg (Ne.symm h.1)]

theorem lookupKV_copyInto_mem (src dst : Meta) (k v : String)
    (hnd : (metaKeys src).Nodup) (h : (k, v) ∈ src) :
    lookupKV (copyInto dst src) k = some v := by
  induction src generalizing dst with
  | nil => cases h
  | cons p rest ih =>
      obtain ⟨k', v'⟩ := p
      rw [metaKeys_cons, List.nodup_cons] at hnd
      rcases List.mem_cons.mp h with he | hrest
      · cases he
        rw [copyInto_cons, lookupKV_copyInto_not_mem rest _ k hnd.1,
          lookupKV_insertKV, if_pos rfl]
      · rw [copyInto_cons]
        exact ih (insertKV dst k' v') hnd.2 hrest

/-! ### String lemmas for the `field:` key encoding -/

theorem strLen_pos (f : String) (h : f ≠ "") : 0 < strLen f := by
  obtain ⟨d⟩ := f
  cases d with
  | nil => exact absurd rfl h
  | cons c cs => simp [strLen]

theorem strLen_field_append (f : String) :
    strLen ("field:" ++ f) = 6 + strLen f := by
  simp [strLen, String.data_append]
  omega

theorem strTake_field_append (f : String) :
    strTake ("field:" ++ f) 6 = "field:" := by
  unfold strTake
  rw [String.data_append]
  have h6 : 6 = ("field:".data).length := rfl
  rw [h6, List.take_left]

theorem strDrop_field_append (f : String) :
    strDrop ("field:" ++ f) 6 = f := by
  unfold strDrop
  rw [String.data_append]
  have h6 : 6 = ("field:".data).length := rfl
  rw [h6, List.drop_left]

theorem isFieldKey_field_append (f : String) (h : f ≠ "") :
    isFieldKey ("field:" ++ f) := by
  refine ⟨?_, strTake_field_append f⟩
  rw [strLen_field_append]
  have := strLen_pos f h
  omega

theorem field_append_strDrop (k : String) (h : isFieldKey k) :
    "field:" ++ strDrop k 6 = k := by
  have htake : k.data.take 6 = "field:".data := congrArg String.data h.2
  refine String.ext ?_
  rw [String.data_append]
  change "field:".data ++ k.data.drop 6 = k.data
  rw [← htake]
  exact List.take_append_drop 6 k.data

theorem field_append_inj (a b : String)
    (h : "field:" ++ a = "field:" ++ b) : a = b := by
  have hd := congrArg String.data h
  rw [String.data_append, String.data_append] at hd
  exact String.ext (List.append_cancel_left hd)

/-! ### Claim theorems -/

/-- C3: for every application code string `C` and message, if `C` is one of
the standard codes in the registry then `NewStandardError C message` carries
exactly the registry entry's gRPC and HTTP codes, and otherwise it carries
the `UNKNOWN` entry's pair (gRPC Unknown, HTTP 500). -/
theorem claim3_new_standard_error_registry (c msg : String) :
    ((NewStandardError c msg).GRPCCode, (NewStandardError c msg).HTTPCode) =
      match standardLookup c with
      | some p => (p.GRPCCode, p.HTTPCode)
      | none => (codeUnknown, 500) := by
  unfold NewStandardError
  cases h : standardLookup c with
  | some p => rfl
  | none => rfl

/-- C5: `a.Is b` holds exactly when the application codes of `a` and `b`
agree, whatever their messages, metadata or causes, and `Is` is false on any
target that is not a `StructuredError`. -/
theorem claim5_is_code_equality (a b : StructuredError) (m : String) :
    (Is a (.structured b) = true ↔ GetCode a = GetCode b) ∧
    Is a (.plain m) = false := by
  constructor
  · simp [Is]
  · rfl

/-- C7: `WrapDefault nil` is nil, and wrapping an existing `StructuredError`
with a new code updates that error's code in place — the message stays, the
metadata map and the cause are untouched, and no second wrapping layer is
created. -/
theorem claim7_wrap_in_place (e : StructuredError) (c : String) :
    WrapDefault none = none ∧
    ∃ e', Wrap (some (.structured e)) c = some e' ∧
      GetCode e' = c ∧ GetMessage e' = GetMessage e ∧
      e'.Metadata = e.Metadata ∧ e'.Cause = e.Cause := by
  exact ⟨rfl, _, rfl, rfl, rfl, rfl, rfl⟩

/-- C8: the code tables map HTTP 418 (an unmapped 4xx) to InvalidArgument and
HTTP 200 to OK, map gRPC Unimplemented to HTTP 501, and send every gRPC code
outside the seventeen standard ones to HTTP 500. -/
theorem claim8_code_tables :
    httpToGRPCCode 418 = codeInvalidArgument ∧
    httpToGRPCCode 200 = codeOK ∧
    grpcToHTTPCode codeUnimplemented = 501 ∧
    ∀ c : Nat, 16 < c → grpcToHTTPCode c = 500 := by
  refine ⟨by decide, by decide, by decide, ?_⟩
  intro c hc
  unfold grpcToHTTPCode codeOK codeCanceled codeUnknown codeInvalidArgument
    codeDeadlineExceeded codeNotFound codeAlreadyExists codePermissionDenied
    codeResourceExhausted codeFailedPrecondition codeAborted codeOutOfRange
    codeUnimplemented codeInternal codeUnavailable codeDataLoss
    codeUnauthenticated
  repeat rw [if_neg (by omega)]

/-- Witness for C8: a concrete gRPC code outside the standard seventeen is
sent to HTTP 500. -/
theorem claim8_code_tables_witness : 16 < 99 ∧ grpcToHTTPCode 99 = 500 :=
  ⟨by decide, claim8_code_tables.2.2.2 99 (by decide)⟩

/-! ### HTTP round-trip -/

/-- The net effect of `omitempty` on the metadata field across a marshal and
unmarshal of `HTTPError`: an allocated-but-empty map comes back as nil. -/
def normMeta : Option Meta → Option Meta
  | none => none
  | some m => if m = [] then none else some m

theorem fromHTTPJSON_toHTTPJSON (e : StructuredError) :
    FromHTTPJSON (ToHTTPJSON e).1 (ToHTTPJSON e).2 =
      .ok ⟨some ⟨GetCode e, GetMessage e, GetUserReason e⟩,
        httpToGRPCCode e.HTTPCode, e.HTTPCode, normMeta e.Metadata, none⟩ := by
  cases hM : e.Metadata <;>
    simp [ToHTTPJSON, jsonMarshalHTTPError, FromHTTPJSON, normMeta, hM]

theorem metaLookup_normMeta (om : Option Meta) (k : String) :
    metaLookup (normMeta om) k = metaLookup om k := by
  cases om with
  | none => rfl
  | some m =>
      cases m with
      | nil => rfl
      | cons p rest => simp [normMeta, metaLookup, metaList]

/-- C2: the HTTP round-trip — decoding the JSON bytes and status code
produced by `ToHTTPJSON` succeeds and preserves the application code, the
developer message, the user-facing reason and the metadata entries (stated
extensionally: a nil map and an allocated empty map hold the same entries,
and `omitempty` identifies the two on the wire), and the decoded error's
gRPC code is `httpToGRPCCode` of the error's HTTP status code. -/
theorem claim2_http_roundtrip (e : StructuredError) :
    ∃ e', FromHTTPJSON (ToHTTPJSON e).1 (ToHTTPJSON e).2 = .ok e' ∧
      GetCode e' = GetCode e ∧ GetMessage e' = GetMessage e ∧
      GetUserReason e' = GetUserReason e ∧
      (∀ k, metaLookup e'.Metadata k = metaLookup e.Metadata k) ∧
      e'.GRPCCode = httpToGRPCCode e.HTTPCode := by
  refine ⟨_, fromHTTPJSON_toHTTPJSON e, rfl, rfl, rfl, ?_, rfl⟩
  intro k
  exact metaLookup_normMeta e.Metadata k

/-! ### Metadata allocation on the gRPC decode path -/

/-- C10: `FromGRPCStatus` always hands back an error whose metadata map is
allocated (possibly empty), while `New` leaves the map nil until the first
`WithMetadata` call; and a status without details decodes to code
`"UNKNOWN"`, the status message, and an empty user-facing reason. -/
theorem claim10_from_grpc_metadata_allocation :
    (∀ st : GrpcStatus,
      ∃ e, FromGRPCStatus (some st) = some e ∧ e.Metadata.isSome = true) ∧
    (∀ c m : String, (New c m).Metadata = none) ∧
    (∀ (e : StructuredError) (k v : String),
      (WithMetadata e k v).Metadata.isSome = true) ∧
    (∀ st : GrpcStatus, st.details = [] →
      ∃ e, FromGRPCStatus (some st) = some e ∧ GetCode e = "UNKNOWN" ∧
        GetMessage e = st.message ∧ GetUserReason e = "" ∧
        e.Metadata = some []) := by
  refine ⟨fun st => ⟨_, rfl, rfl⟩, fun c m => rfl, fun e k v => rfl,
    fun st h => ?_⟩
  obtain ⟨c0, m0, ds⟩ := st
  cases h
  exact ⟨_, rfl, rfl, rfl, rfl, rfl⟩

/-- Witness for C10: a concrete detail-less status decodes to an `"UNKNOWN"`
error carrying the status message and an allocated empty metadata map. -/
theorem claim10_witness :
    ∃ e, FromGRPCStatus (some ⟨codeUnknown, "boom", []⟩) = some e ∧
      GetCode e = "UNKNOWN" ∧ GetMessage e = "boom" ∧ GetUserReason e = "" ∧
      e.Metadata = some [] :=
  claim10_from_grpc_metadata_allocation.2.2.2 ⟨codeUnknown, "boom", []⟩ rfl

/-! ### Shape of `ToGRPCStatus` -/

/-- Closed form of `ToGRPCStatus`: for an OK-coded error no detail can be
attached, and whenever one is attempted (non-empty metadata or non-empty
user-facing reason) the function returns nil, because the failed
`WithDetails` call has already replaced the status variable with nil;
otherwise the details are exactly the `ErrorInfo` for a non-empty metadata
map followed by the `LocalizedMessage` for a non-empty user-facing reason. -/
theorem toGRPCStatus_eq (e : StructuredError) :
    ToGRPCStatus e =
      if e.GRPCCode = codeOK then
        (if 0 < metaLen e.Metadata then none
        else if GetUserReason e ≠ "" then none
        else some ⟨e.GRPCCode, GetMessage e, []⟩)
      else
        some ⟨e.GRPCCode, GetMessage e,
          (if 0 < metaLen e.Metadata then
            [GrpcDetail.errorInfo (GetCode e) xerrDomain (metaList e.Metadata)]
          else []) ++
          (if GetUserReason e ≠ "" then
            [GrpcDetail.localizedMessage "en-US" (GetUserReason e)]
          else [])⟩ := by
  unfold ToGRPCStatus attachLocalized withDetails
  by_cases hc : e.GRPCCode = codeOK <;>
    by_cases hm : 0 < metaLen e.Metadata <;>
    by_cases hr : GetUserReason e = "" <;>
    simp [hc, hm, hr]

/-! ### The `ToGRPCStatus` contract (C4) -/

/-- C4 counterexample: the claim requires an error-info detail whenever the
metadata is non-empty or a domain was explicitly set.  Setting a domain via
`WithErrorInfo` with an empty map yields a status with no details at all
(the domain argument is discarded), and an OK-coded error with non-empty
metadata yields no status whatsoever: grpc-go's `WithDetails` refuses
details on an OK status and returns nil, which the reassignment
`st, err = st.WithDetails(...)` propagates to the early return. -/
theorem claim4_counterexample :
    ToGRPCStatus (WithErrorInfo (New "X" "m") "custom.example" (some [])) =
      some ⟨codeUnknown, "m", []⟩ ∧
    0 < metaLen (WithMetadata (WithGRPCCode (New "X" "m") codeOK) "k" "v").Metadata ∧
    ToGRPCStatus (WithMetadata (WithGRPCCode (New "X" "m") codeOK) "k" "v") =
      none := by
  exact ⟨rfl, by decide, rfl⟩

/-- C4 (amended): for every error whose gRPC code is not OK, `ToGRPCStatus`
returns a status carrying the error's gRPC code and developer message; it
attaches an error-info detail exactly when the metadata map is non-empty
(the domain argument of `WithErrorInfo` is discarded, so an explicitly set
domain never triggers attachment, and any attached error-info carries the
fixed package domain); and it attaches a localized-message detail exactly
when the user-facing reason is non-empty. -/
theorem claim4_to_grpc_status (e : StructuredError)
    (hc : e.GRPCCode ≠ codeOK) :
    ∃ st, ToGRPCStatus e = some st ∧
      st.code = e.GRPCCode ∧ st.message = GetMessage e ∧
      ((∃ r d md, GrpcDetail.errorInfo r d md ∈ st.details) ↔
        0 < metaLen e.Metadata) ∧
      ((∃ l msg, GrpcDetail.localizedMessage l msg ∈ st.details) ↔
        GetUserReason e ≠ "") ∧
      (∀ r d md, GrpcDetail.errorInfo r d md ∈ st.details → d = xerrDomain) := by
  rw [toGRPCStatus_eq e, if_neg hc]
  refine ⟨_, rfl, rfl, rfl, ?_⟩
  by_cases hm : 0 < metaLen e.Metadata <;>
    by_cases hr : GetUserReason e = "" <;>
    simp [hm, hr] <;>
    exact fun r d md _ hd _ => hd

/-- Witness for C4: a concrete error with non-empty metadata and a
user-facing reason satisfies the amended `ToGRPCStatus` contract. -/
theorem claim4_witness :
    (WithReason (WithMetadata (New "C" "msg") "a" "b") "why").GRPCCode ≠ codeOK ∧
    ∃ st, ToGRPCStatus (WithReason (WithMetadata (New "C" "msg") "a" "b") "why") =
        some st ∧
      st.code = (WithReason (WithMetadata (New "C" "msg") "a" "b") "why").GRPCCode ∧
      st.message = GetMessage (WithReason (WithMetadata (New "C" "msg") "a" "b") "why") ∧
      ((∃ r d md, GrpcDetail.errorInfo r d md ∈ st.details) ↔
        0 < metaLen (WithReason (WithMetadata (New "C" "msg") "a" "b") "why").Metadata) ∧
      ((∃ l msg, GrpcDetail.localizedMessage l msg ∈ st.details) ↔
        GetUserReason (WithReason (WithMetadata (New "C" "msg") "a" "b") "why") ≠ "") ∧
      (∀ r d md, GrpcDetail.errorInfo r d md ∈ st.details → d = xerrDomain) :=
  ⟨by decide,
    claim4_to_grpc_status (WithReason (WithMetadata (New "C" "msg") "a" "b") "why")
      (by decide)⟩

/-! ### The discarded domain (C9) -/

/-- C9: `WithErrorInfo` merges the supplied map's entries into the error's
metadata (supplied entries win, other keys are untouched) but discards the
domain argument entirely — the result does not depend on it — and the
error-info detail later produced by `GetErrorInfo` or `ToGRPCStatus` always
carries the fixed domain `"github.com/nduyhai/xerr"`, never the argument. -/
theorem claim9_domain_discarded :
    (∀ (e : StructuredError) (d₁ d₂ : String) (md : Option Meta),
      WithErrorInfo e d₁ md = WithErrorInfo e d₂ md) ∧
    (∀ (e : StructuredError) (d : String) (md : Meta) (k v : String),
      (metaKeys md).Nodup → (k, v) ∈ md →
      metaLookup (WithErrorInfo e d (some md)).Metadata k = some v) ∧
    (∀ (e : StructuredError) (d : String) (md : Meta) (k : String),
      k ∉ metaKeys md →
      metaLookup (WithErrorInfo e d (some md)).Metadata k =
        metaLookup e.Metadata k) ∧
    (∀ e : StructuredError, (GetErrorInfo e).domain = xerrDomain) ∧
    (∀ (e : StructuredError) (st : GrpcStatus) (r d : String) (md : Meta),
      ToGRPCStatus e = some st →
      GrpcDetail.errorInfo r d md ∈ st.details → d = xerrDomain) := by
  refine ⟨fun e d₁ d₂ md => rfl, ?_, ?_, fun e => rfl, ?_⟩
  · intro e d md k v hnd hmem
    exact lookupKV_copyInto_mem md (metaList e.Metadata) k v hnd hmem
  · intro e d md k hk
    exact lookupKV_copyInto_not_mem md (metaList e.Metadata) k hk
  · intro e st r d md hst hmem
    rw [toGRPCStatus_eq e] at hst
    by_cases hc : e.GRPCCode = codeOK
    · rw [if_pos hc] at hst
      by_cases hm : 0 < metaLen e.Metadata
      · rw [if_pos hm] at hst
        cases hst
      · rw [if_neg hm] at hst
        by_cases hr : GetUserReason e = ""
        · simp only [hr, ne_eq, not_true_eq_false, if_false, Option.some.injEq] at hst
          subst hst
          simp at hmem
        · simp [hr] at hst
    · rw [if_neg hc] at hst
      simp only [Option.some.injEq] at hst
      subst hst
      rcases List.mem_append.mp hmem with h1 | h2
      · by_cases hm : 0 < metaLen e.Metadata
        · simp only [if_pos hm, List.mem_singleton] at h1
          cases h1
          rfl
        · simp [hm] at h1
      · by_cases hr : GetUserReason e = ""
        · simp [hr] at h2
        · simp [hr] at h2

/-- Witness for C9: concretely, the entries supplied to `WithErrorInfo` are
readable back and a fresh key is unaffected. -/
theorem claim9_witness :
    metaLookup (WithErrorInfo (New "C" "m") "service.example"
      (some [("k", "v")])).Metadata "k" = some "v" ∧
    metaLookup (WithErrorInfo (New "C" "m") "service.example"
      (some [("k", "v")])).Metadata "zzz" =
      metaLookup (New "C" "m").Metadata "zzz" :=
  ⟨claim9_domain_discarded.2.1 (New "C" "m") "service.example" [("k", "v")]
      "k" "v" (by decide) (by decide),
    claim9_domain_discarded.2.2.1 (New "C" "m") "service.example" [("k", "v")]
      "zzz" (by decide)⟩

/-! ### The RPC round-trip (C1) -/

/-- An OK-coded error with non-empty metadata and a user-facing reason: the
input on which the C1 round-trip breaks. -/
def okCodedError : StructuredError :=
  WithReason (WithMetadata (WithGRPCCode (New "X" "m") codeOK) "k" "v") "r"

/-- C1 counterexample: for an OK-coded error with non-empty metadata and a
non-empty user-facing reason, grpc-go's `WithDetails` refuses the error-info
detail and returns nil, the reassignment `st, err = st.WithDetails(...)`
makes the early return yield that nil, and `FromGRPCStatus(nil)` is nil — so
the round-trip yields no error at all, let alone one with the same code,
message, domain and metadata. -/
theorem claim1_counterexample :
    0 < metaLen okCodedError.Metadata ∧
    GetUserReason okCodedError ≠ "" ∧
    FromGRPCStatus (ToGRPCStatus okCodedError) = none ∧
    ¬ ∃ e', FromGRPCStatus (ToGRPCStatus okCodedError) = some e' := by
  refine ⟨by decide, by decide, rfl, ?_⟩
  rintro ⟨e', he'⟩
  rw [show FromGRPCStatus (ToGRPCStatus okCodedError) = none from rfl] at he'
  cases he'

/-- C1 (amended): for every error whose gRPC code is not OK, with non-empty
metadata and a non-empty user-facing reason, decoding the status produced by
`ToGRPCStatus` yields an error with the same application code, the same
developer message, the same (fixed) error-info domain, and a metadata map
set-equal to the original.  (Key uniqueness of the metadata map — automatic
for a Go map — is the `Nodup` hypothesis.) -/
theorem claim1_rpc_roundtrip (e : StructuredError)
    (hc : e.GRPCCode ≠ codeOK)
    (hm : 0 < metaLen e.Metadata)
    (hnd : (metaKeys (metaList e.Metadata)).Nodup)
    (hr : GetUserReason e ≠ "") :
    ∃ e', FromGRPCStatus (ToGRPCStatus e) = some e' ∧
      GetCode e' = GetCode e ∧
      GetMessage e' = GetMessage e ∧
      (GetErrorInfo e').domain = (GetErrorInfo e).domain ∧
      (∀ p : String × String,
        p ∈ metaList e'.Metadata ↔ p ∈ metaList e.Metadata) := by
  rw [toGRPCStatus_eq e, if_neg hc, if_pos hm, if_pos hr]
  refine ⟨_, rfl, rfl, rfl, rfl, ?_⟩
  intro p
  show p ∈ copyInto [] (metaList e.Metadata) ↔ p ∈ metaList e.Metadata
  rw [copyInto_nil _ hnd]

/-- A non-OK error with metadata and a user-facing reason (input for the C1
witness). -/
def roundtripExample : StructuredError :=
  WithReason (WithMetadata (New "X" "m") "k" "v") "r"

/-- Witness for C1: the round-trip preserves code, message, domain and
metadata on a concrete non-OK error. -/
theorem claim1_rpc_roundtrip_witness :
    roundtripExample.GRPCCode ≠ codeOK ∧
    0 < metaLen roundtripExample.Metadata ∧
    (metaKeys (metaList roundtripExample.Metadata)).Nodup ∧
    GetUserReason roundtripExample ≠ "" ∧
    ∃ e', FromGRPCStatus (ToGRPCStatus roundtripExample) = some e' ∧
      GetCode e' = GetCode roundtripExample ∧
      GetMessage e' = GetMessage roundtripExample ∧
      (GetErrorInfo e').domain = (GetErrorInfo roundtripExample).domain ∧
      (∀ p : String × String,
        p ∈ metaList e'.Metadata ↔ p ∈ metaList roundtripExample.Metadata) :=
  ⟨by decide, by decide, by decide, by decide,
    claim1_rpc_roundtrip roundtripExample (by decide) (by decide) (by decide)
      (by decide)⟩

/-! ### Field-violation fold/unfold (C6) -/

theorem getBadRequest_none (e : StructuredError) (h : e.Metadata = none) :
    GetBadRequest e = none := by
  unfold GetBadRequest
  rw [h]

theorem getBadRequest_some (M : Meta) (e : StructuredError)
    (h : e.Metadata = some M) :
    GetBadRequest e =
      if M.filterMap extractField = [] then none
      else some (M.filterMap extractField) := by
  unfold GetBadRequest
  rw [h]

theorem filterMap_extractField_map (fv : Meta)
    (hne : ∀ p ∈ fv, p.1 ≠ "") :
    (fv.map (fun p => ("field:" ++ p.1, p.2))).filterMap extractField = fv := by
  induction fv with
  | nil => rfl
  | cons p rest ih =>
      obtain ⟨f, d⟩ := p
      have hf : f ≠ "" := hne (f, d) (List.mem_cons_self _ _)
      have hex : extractField ("field:" ++ f, d) = some (f, d) := by
        unfold extractField
        rw [if_pos (isFieldKey_field_append f hf), strDrop_field_append]
      simp only [List.map_cons, List.filterMap_cons, hex]
      rw [ih (fun q hq => hne q (List.mem_cons_of_mem _ hq))]

/-- C6 counterexample: folding the single violation with the empty field
name gives the metadata key `"field:"`, whose length is not greater than six,
so unfolding reports no record at all instead of the folded record. -/
theorem claim6_counterexample :
    GetBadRequest (WithBadRequest (New "X" "m") (some [("", "oops")])) =
      none ∧
    ¬ ∃ l, GetBadRequest (WithBadRequest (New "X" "m") (some [("", "oops")])) =
        some l ∧ ("", "oops") ∈ l := by
  have h0 : GetBadRequest (WithBadRequest (New "X" "m") (some [("", "oops")])) =
      none := by decide
  refine ⟨h0, ?_⟩
  rintro ⟨l, hl, _⟩
  rw [h0] at hl
  cases hl

/-- C6 (amended): folding a map of field violations whose field names are all
non-empty into an error carrying no `field:`-prefixed metadata, then
unfolding, yields exactly the same set of `(field, description)` records
(order-independent); every reported record always originates from a
`field:`-prefixed metadata entry, so unrelated keys are never mistaken for
violations; and zero matching keys yield the absent value, not an empty
list. -/
theorem claim6_bad_request_roundtrip :
    (∀ (e : StructuredError) (fv : Meta),
      (∀ p ∈ fv, p.1 ≠ "") →
      (metaKeys fv).Nodup →
      (∀ k ∈ metaKeys (metaList e.Metadata), ¬ isFieldKey k) →
      (fv = [] → GetBadRequest (WithBadRequest e (some fv)) = none) ∧
      (fv ≠ [] → ∃ l, GetBadRequest (WithBadRequest e (some fv)) = some l ∧
        ∀ p : String × String, p ∈ l ↔ p ∈ fv)) ∧
    (∀ (e : StructuredError) (l : List (String × String)) (p : String × String),
      GetBadRequest e = some l → p ∈ l →
      ("field:" ++ p.1, p.2) ∈ metaList e.Metadata) ∧
    (∀ e : StructuredError,
      (∀ p : String × String, p ∈ metaList e.Metadata → ¬ isFieldKey p.1) →
      GetBadRequest e = none) := by
  refine ⟨?_, ?_, ?_⟩
  · intro e fv hne hnd hclean
    have hkeys : metaKeys (fv.map (fun p => ("field:" ++ p.1, p.2))) =
        fv.map (fun p => "field:" ++ p.1) := by
      unfold metaKeys
      rw [List.map_map]
      rfl
    have hnd' : (metaKeys (fv.map (fun p => ("field:" ++ p.1, p.2)))).Nodup := by
      rw [hkeys]
      have hmm : fv.map (fun p => "field:" ++ p.1) =
          (metaKeys fv).map (fun k => "field:" ++ k) := by
        unfold metaKeys
        rw [List.map_map]
        rfl
      rw [hmm]
      exact hnd.map (fun a b hab => field_append_inj a b hab)
    have hdisj : ∀ k ∈ metaKeys (fv.map (fun p => ("field:" ++ p.1, p.2))),
        k ∉ metaKeys (metaList e.Metadata) := by
      intro k hk hkin
      rw [hkeys] at hk
      obtain ⟨p, hp, rfl⟩ := List.mem_map.mp hk
      exact hclean _ hkin (isFieldKey_field_append p.1 (hne p hp))
    have hM : (WithBadRequest e (some fv)).Metadata =
        some (metaList e.Metadata ++ fv.map (fun p => ("field:" ++ p.1, p.2))) := by
      show some (copyInto (metaList e.Metadata) _) = _
      rw [copyInto_of_disjoint _ _ hdisj hnd']
    have hbase : (metaList e.Metadata).filterMap extractField = [] := by
      refine List.filterMap_eq_nil_iff.mpr ?_
      intro p hp
      unfold extractField
      rw [if_neg (hclean p.1 (List.mem_map_of_mem Prod.fst hp))]
    have hfull :
        ((metaList e.Metadata ++
          fv.map (fun p => ("field:" ++ p.1, p.2))).filterMap extractField) = fv := by
      rw [List.filterMap_append, hbase, filterMap_extractField_map fv hne]
      simp
    rw [getBadRequest_some _ _ hM, hfull]
    constructor
    · intro h0
      rw [if_pos h0]
    · intro h0
      rw [if_neg h0]
      exact ⟨fv, rfl, fun p => Iff.rfl⟩
  · intro e l p hbr hpl
    cases hMeta : e.Metadata with
    | none =>
        rw [getBadRequest_none e hMeta] at hbr
        cases hbr
    | some m =>
        rw [getBadRequest_some m e hMeta] at hbr
        by_cases hemp : m.filterMap extractField = []
        · rw [if_pos hemp] at hbr
          cases hbr
        · rw [if_neg hemp] at hbr
          simp only [Option.some.injEq] at hbr
          subst hbr
          obtain ⟨q, hq, hq2⟩ := List.mem_filterMap.mp hpl
          unfold extractField at hq2
          by_cases hfk : isFieldKey q.1
          · rw [if_pos hfk] at hq2
            simp only [Option.some.injEq] at hq2
            subst hq2
            show ("field:" ++ strDrop q.1 6, q.2) ∈ m
            rw [field_append_strDrop q.1 hfk]
            exact hq
          · rw [if_neg hfk] at hq2
            cases hq2
  · intro e hclean
    cases hMeta : e.Metadata with
    | none => exact getBadRequest_none e hMeta
    | some m =>
        rw [getBadRequest_some m e hMeta]
        have h0 : m.filterMap extractField = [] := by
          refine List.filterMap_eq_nil_iff.mpr ?_
          intro p hp
          unfold extractField
          refine if_neg (hclean p ?_)
          rw [hMeta]
          exact hp
        rw [if_pos h0]

/-- Witness for C6: the spec's own example — folding
`{"email": "bad format", "age": "too young"}` and unfolding yields exactly
those two records. -/
theorem claim6_bad_request_witness :
    [("email", "bad format"), ("age", "too young")] ≠ ([] : Meta) ∧
    ∃ l, GetBadRequest (WithBadRequest (New "X" "m")
        (some [("email", "bad format"), ("age", "too young")])) = some l ∧
      ∀ p : String × String,
        p ∈ l ↔ p ∈ [("email", "bad format"), ("age", "too young")] :=
  ⟨by decide,
    (claim6_bad_request_roundtrip.1 (New "X" "m")
      [("email", "bad format"), ("age", "too young")]
      (by decide) (by decide) (by decide)).2 (by decide)⟩

end Xerr
